import Mathlib

/-!
# Verification of the filter/aggregate core of the AI-investment dashboard

Shallow embedding of `src/app.py`. The dataset is a list of records (one
company-year observation, the columns of `data/avanco_ia_empresas.csv`);
`filter_data` is the pandas boolean-mask filter; the per-view aggregators
are the pandas groupby/sum/mean/nunique/nlargest/value_counts/corr calls
made by the four render functions. Monetary and percentage columns are
modelled as exact rationals `ℚ`; the correlation matrix (a floating-point
computation in pandas) is modelled over `ℝ`.
-/

/-- One row of the dataset (one company-year observation). Field names are
the CSV column names used by `app.py`; `crescimento_lucro` stands for the
column `crescimento_lucro_%`. -/
structure Record where
  empresa : String
  pais_sede : String
  setor : String
  ano : Int
  investimento_ia_usd_milhoes : ℚ
  crescimento_lucro : ℚ
  nota_inovacao : ℚ
  principais_usos_ia : String
  impacto_operacional : String
deriving DecidableEq, Repr

/-- `filter_data(df, countries, sectors, year_range)` from `app.py`: keeps
the rows whose `pais_sede` is in `countries`, whose `setor` is in
`sectors`, and whose `ano` lies in the inclusive interval
`[year_range[0], year_range[1]]` (pandas boolean-mask conjunction). -/
def filter_data (df : List Record) (countries sectors : List String)
    (year_range : Int × Int) : List Record :=
  df.filter (fun r =>
    countries.contains r.pais_sede &&
    sectors.contains r.setor &&
    decide (year_range.1 ≤ r.ano) &&
    decide (r.ano ≤ year_range.2))

/-- Membership in the filtered output, unconditionally. -/
theorem mem_filter_data {df : List Record} {countries sectors : List String}
    {lo hi : Int} {r : Record} :
    r ∈ filter_data df countries sectors (lo, hi) ↔
      r ∈ df ∧ r.pais_sede ∈ countries ∧ r.setor ∈ sectors ∧
        lo ≤ r.ano ∧ r.ano ≤ hi := by
  simp [filter_data, List.mem_filter, and_assoc]

/-- C1: Filter soundness and completeness: for every dataset, country set,
sector set, and year interval `[lo, hi]` with `lo ≤ hi`, every record in
the output of `filter_data` has its country in the country set, its sector
in the sector set, and a year between `lo` and `hi`; and every input
record satisfying all three predicates appears in the output. -/
theorem filter_data_sound_complete (df : List Record)
    (countries sectors : List String) (lo hi : Int) (hlohi : lo ≤ hi) :
    (∀ r ∈ filter_data df countries sectors (lo, hi),
        r.pais_sede ∈ countries ∧ r.setor ∈ sectors ∧ lo ≤ r.ano ∧ r.ano ≤ hi) ∧
    (∀ r ∈ df, r.pais_sede ∈ countries → r.setor ∈ sectors →
        lo ≤ r.ano → r.ano ≤ hi →
        r ∈ filter_data df countries sectors (lo, hi)) := by
  constructor
  · intro r hr
    exact (mem_filter_data.mp hr).2
  · intro r hr h1 h2 h3 h4
    exact mem_filter_data.mpr ⟨hr, h1, h2, h3, h4⟩

/-- Concrete record used in witnesses and in the example scenario:
company A, Finance, 2020, invests 10 (USD millions), 5% profit growth. -/
def recA : Record :=
  { empresa := "A", pais_sede := "EUA", setor := "Finance", ano := 2020
    investimento_ia_usd_milhoes := 10, crescimento_lucro := 5
    nota_inovacao := 7, principais_usos_ia := "Chatbots"
    impacto_operacional := "Alto" }

/-- Concrete record used in witnesses and in the example scenario:
company B, Finance, 2021, invests 20 (USD millions), -2% profit growth. -/
def recB : Record :=
  { empresa := "B", pais_sede := "EUA", setor := "Finance", ano := 2021
    investimento_ia_usd_milhoes := 20, crescimento_lucro := -2
    nota_inovacao := 8, principais_usos_ia := "Automacao"
    impacto_operacional := "Medio" }

/-- Witness for C1 at a concrete dataset and interval. -/
theorem filter_data_sound_complete_witness :
    (2020 : Int) ≤ 2021 ∧
    ((∀ r ∈ filter_data [recA, recB] ["EUA"] ["Finance"] (2020, 2021),
        r.pais_sede ∈ ["EUA"] ∧ r.setor ∈ ["Finance"] ∧
          (2020 : Int) ≤ r.ano ∧ r.ano ≤ 2021) ∧
    (∀ r ∈ [recA, recB], r.pais_sede ∈ ["EUA"] → r.setor ∈ ["Finance"] →
        (2020 : Int) ≤ r.ano → r.ano ≤ 2021 →
        r ∈ filter_data [recA, recB] ["EUA"] ["Finance"] (2020, 2021))) :=
  ⟨by decide,
   filter_data_sound_complete [recA, recB] ["EUA"] ["Finance"] 2020 2021
     (by decide)⟩

/-- C3: An empty country selection (and likewise an empty sector
selection) makes `filter_data` return zero rows, for every dataset and
every year interval: `isin([])` is false on every row and the mask is a
conjunction, with no select-all fallback. -/
theorem filter_data_empty_selection_zero_rows (df : List Record)
    (countries sectors : List String) (year_range : Int × Int) :
    filter_data df [] sectors year_range = [] ∧
    filter_data df countries [] year_range = [] := by
  constructor <;> simp [filter_data, List.filter_eq_nil_iff]

/-- C4: `filter_data` is pure and deterministic (equal inputs give equal
outputs) and idempotent: filtering an already-filtered frame with the same
selections changes nothing. -/
theorem filter_data_pure_idempotent (df df' : List Record)
    (c c' s s' : List String) (y y' : Int × Int)
    (hd : df = df') (hc : c = c') (hs : s = s') (hy : y = y') :
    filter_data (filter_data df c s y) c s y = filter_data df c s y ∧
    filter_data df c s y = filter_data df' c' s' y' := by
  subst hd hc hs hy
  refine ⟨?_, rfl⟩
  simp [filter_data, List.filter_filter]

/-- Witness for C4 at concrete inputs. -/
theorem filter_data_pure_idempotent_witness :
    [recA] = [recA] ∧ ["EUA"] = ["EUA"] ∧ ["Finance"] = ["Finance"] ∧
    ((2020 : Int), (2021 : Int)) = ((2020 : Int), (2021 : Int)) ∧
    (filter_data (filter_data [recA] ["EUA"] ["Finance"] (2020, 2021))
        ["EUA"] ["Finance"] (2020, 2021) =
      filter_data [recA] ["EUA"] ["Finance"] (2020, 2021) ∧
    filter_data [recA] ["EUA"] ["Finance"] (2020, 2021) =
      filter_data [recA] ["EUA"] ["Finance"] (2020, 2021)) :=
  ⟨rfl, rfl, rfl, rfl,
   filter_data_pure_idempotent [recA] [recA] ["EUA"] ["EUA"]
     ["Finance"] ["Finance"] (2020, 2021) (2020, 2021) rfl rfl rfl rfl⟩

/-- C10: `filter_data` returns an order-preserving subsequence of its
input: every output row is an unchanged input row and relative order is
kept (`List.Sublist`). The input itself is unmodified — in this pure
embedding no function mutates its argument, matching pandas boolean-mask
selection, which allocates a new frame and leaves `df` intact. -/
theorem filter_data_sublist_frame (df : List Record)
    (countries sectors : List String) (year_range : Int × Int) :
    (filter_data df countries sectors year_range).Sublist df :=
  List.filter_sublist df

/-- `int(df["ano"].min())` of a nonempty frame, 0 for the empty frame
(where pandas would give NaN). -/
def minYear : List Record → Int
  | [] => 0
  | r :: rs => rs.foldl (fun m q => min m q.ano) r.ano

/-- `int(df["ano"].max())` of a nonempty frame, 0 for the empty frame. -/
def maxYear : List Record → Int
  | [] => 0
  | r :: rs => rs.foldl (fun m q => max m q.ano) r.ano

theorem foldl_min_le_init (rs : List Record) (a : Int) :
    rs.foldl (fun m q => min m q.ano) a ≤ a := by
  induction rs generalizing a with
  | nil => simp
  | cons q rs ih => exact le_trans (ih (min a q.ano)) (min_le_left _ _)

theorem foldl_min_le_mem {rs : List Record} {r : Record} (h : r ∈ rs) (a : Int) :
    rs.foldl (fun m q => min m q.ano) a ≤ r.ano := by
  induction rs generalizing a with
  | nil => cases h
  | cons q rs ih =>
    rcases List.mem_cons.mp h with rfl | h'
    · exact le_trans (foldl_min_le_init rs (min a r.ano)) (min_le_right _ _)
    · exact ih h' (min a q.ano)

theorem init_le_foldl_max (rs : List Record) (a : Int) :
    a ≤ rs.foldl (fun m q => max m q.ano) a := by
  induction rs generalizing a with
  | nil => simp
  | cons q rs ih => exact le_trans (le_max_left _ _) (ih (max a q.ano))

theorem mem_le_foldl_max {rs : List Record} {r : Record} (h : r ∈ rs) (a : Int) :
    r.ano ≤ rs.foldl (fun m q => max m q.ano) a := by
  induction rs generalizing a with
  | nil => cases h
  | cons q rs ih =>
    rcases List.mem_cons.mp h with rfl | h'
    · exact le_trans (le_max_right _ _) (init_le_foldl_max rs (max a r.ano))
    · exact ih h' (max a q.ano)

theorem minYear_le {df : List Record} {r : Record} (h : r ∈ df) :
    minYear df ≤ r.ano := by
  cases df with
  | nil => cases h
  | cons q rs =>
    rcases List.mem_cons.mp h with rfl | h'
    · exact foldl_min_le_init rs r.ano
    · exact foldl_min_le_mem h' q.ano

theorem le_maxYear {df : List Record} {r : Record} (h : r ∈ df) :
    r.ano ≤ maxYear df := by
  cases df with
  | nil => cases h
  | cons q rs =>
    rcases List.mem_cons.mp h with rfl | h'
    · exact init_le_foldl_max rs r.ano
    · exact mem_le_foldl_max h' q.ano

/-- C2: the identity case: filtering with the full country set, the full
sector set (the values occurring in the dataset, as pre-populated by
`render_sidebar_filters` from `df["pais_sede"].unique()` and
`df["setor"].unique()`), and the dataset's own `[min, max]` year range
returns the dataset unchanged. -/
theorem filter_data_full_selection_identity (df : List Record) :
    filter_data df (df.map (fun r => r.pais_sede)) (df.map (fun r => r.setor))
      (minYear df, maxYear df) = df := by
  rw [filter_data, List.filter_eq_self]
  intro r hr
  simp only [Bool.and_eq_true, decide_eq_true_eq, List.contains,
    List.elem_eq_mem, List.mem_map]
  exact ⟨⟨⟨⟨r, hr, rfl⟩, ⟨r, hr, rfl⟩⟩, minYear_le hr⟩, le_maxYear hr⟩

/-- The two-record example dataset of the spec's example scenario. -/
def exampleDataset : List Record := [recA, recB]

/-- `filtered_df['investimento_ia_usd_milhoes'].sum()` (overview metric
"Total Investido"). -/
def totalInvestment (d : List Record) : ℚ :=
  (d.map (fun r => r.investimento_ia_usd_milhoes)).sum

/-- `filtered_df["empresa"].nunique()` (overview metric "Número de
Empresas"). -/
def distinctCompanies (d : List Record) : Nat :=
  (d.map (fun r => r.empresa)).dedup.length

/-- Mean of a list of rationals (`Series.mean`); division by zero for the
empty list yields `0` where pandas yields NaN — every use below is guarded
by nonemptiness or concrete. -/
def meanQ (l : List ℚ) : ℚ := l.sum / (l.length : ℚ)

/-- `filtered_df['crescimento_lucro_%'].mean()` (overview metric
"Crescimento Médio de Lucro"). -/
def meanProfitGrowth (d : List Record) : ℚ :=
  meanQ (d.map (fun r => r.crescimento_lucro))

/-- C9: the concrete example scenario: with records A (Finance, 2020,
10, 5%) and B (Finance, 2021, 20, -2%), filtering by sector {Finance},
years [2020, 2021] and the full country set returns both rows, and the
overview shows total investment 30, 2 distinct companies and mean profit
growth 1.5 (simple arithmetic mean across filtered rows). -/
theorem example_scenario_overview :
    filter_data exampleDataset (exampleDataset.map (fun r => r.pais_sede))
      ["Finance"] (2020, 2021) = exampleDataset ∧
    totalInvestment exampleDataset = 30 ∧
    distinctCompanies exampleDataset = 2 ∧
    meanProfitGrowth exampleDataset = 3 / 2 := by
  refine ⟨?_, ?_, ?_, ?_⟩
  · simp [filter_data, exampleDataset, recA, recB]
  · norm_num [totalInvestment, exampleDataset, recA, recB]
  · simp [distinctCompanies, exampleDataset, recA, recB]
  · norm_num [meanProfitGrowth, meanQ, exampleDataset, recA, recB]

/-- The group keys of `filtered_df.groupby('empresa')`: the distinct
company names, in sorted order (pandas sorts group keys). -/
def companyKeys (d : List Record) : List String :=
  ((d.map (fun r => r.empresa)).dedup).mergeSort (fun a b => decide (a ≤ b))

/-- `filtered_df.groupby('empresa')['investimento_ia_usd_milhoes'].sum()`:
per-company totals of investment. -/
def companyTotals (d : List Record) : List (String × ℚ) :=
  (companyKeys d).map
    (fun c => (c, totalInvestment (d.filter (fun r => r.empresa == c))))

/-- `...groupby('empresa')[...].sum().nlargest(10)` from
`render_overview_page`: the per-company totals sorted by descending total
(stable, so ties keep the group-key order), truncated to 10 entries. -/
def top_companies (d : List Record) : List (String × ℚ) :=
  ((companyTotals d).mergeSort (fun a b => decide (b.2 ≤ a.2))).take 10

/-- C5: the overview's top-10 companies list has at most 10 entries, is
sorted in descending order of total investment, and every company named in
it occurs in some record of the filtered set. -/
theorem top_companies_spec (d : List Record) :
    (top_companies d).length ≤ 10 ∧
    (top_companies d).Pairwise (fun a b => b.2 ≤ a.2) ∧
    ∀ p ∈ top_companies d, ∃ r ∈ d, r.empresa = p.1 := by
  refine ⟨?_, ?_, ?_⟩
  · exact List.length_take_le 10 _
  · have hs :
        ((companyTotals d).mergeSort
            (fun a b => decide (b.2 ≤ a.2))).Pairwise
          (fun a b => decide (b.2 ≤ a.2)) := by
      apply List.sorted_mergeSort
      · intro a b c hab hbc
        simp only [decide_eq_true_eq] at *
        exact le_trans hbc hab
      · intro a b
        simp only [Bool.or_eq_true, decide_eq_true_eq]
        exact le_total b.2 a.2
    exact ((hs.sublist (List.take_sublist 10 _)).imp
      (fun h => of_decide_eq_true h))
  · intro p hp
    have hp1 : p ∈ (companyTotals d).mergeSort (fun a b => decide (b.2 ≤ a.2)) :=
      List.mem_of_mem_take hp
    have hp2 : p ∈ companyTotals d :=
      (List.mergeSort_perm (companyTotals d) _).mem_iff.mp hp1
    rcases List.mem_map.mp hp2 with ⟨c, hc, rfl⟩
    have hc2 : c ∈ (d.map (fun r => r.empresa)).dedup :=
      (List.mergeSort_perm _ _).mem_iff.mp hc
    rcases List.mem_map.mp (List.mem_dedup.mp hc2) with ⟨r, hr, rfl⟩
    exact ⟨r, hr, rfl⟩

/-- The distinct sectors occurring in the filtered set (the categories of
the overview pie `px.pie(filtered_df, names='setor', ...)`). -/
def sectors_of (d : List Record) : List String :=
  (d.map (fun r => r.setor)).dedup

/-- The investment total of one sector's slice of the pie: the sum of
`investimento_ia_usd_milhoes` over the rows of that sector. -/
def sectorInvestment (d : List Record) (s : String) : ℚ :=
  totalInvestment (d.filter (fun r => r.setor == s))

theorem list_sum_map_add (ks : List String) (f g : String → ℚ) :
    (ks.map (fun s => f s + g s)).sum = (ks.map f).sum + (ks.map g).sum := by
  induction ks with
  | nil => simp
  | cons k ks ih => simp [ih]; ring

theorem list_sum_map_single {ks : List String} {x : String} (v : ℚ)
    (hnd : ks.Nodup) (hx : x ∈ ks) :
    (ks.map (fun s => if x == s then v else 0)).sum = v := by
  induction ks with
  | nil => cases hx
  | cons k ks ih =>
    rcases List.nodup_cons.mp hnd with ⟨hk, hnd'⟩
    rcases List.mem_cons.mp hx with rfl | hx'
    · simp only [List.map_cons, List.sum_cons, beq_self_eq_true, if_true]
      have hz : ((ks.map (fun s => if x == s then v else 0)).sum) = 0 := by
        apply List.sum_eq_zero
        intro y hy
        rcases List.mem_map.mp hy with ⟨s, hs, rfl⟩
        have : ¬(x == s) = true := by
          intro hxs
          exact hk (beq_iff_eq.mp hxs ▸ hs)
        simp [this]
      rw [hz, add_zero]
    · have hxk : ¬(x == k) = true := by
        intro hxk
        exact hk (beq_iff_eq.mp hxk ▸ hx')
      rw [List.map_cons, List.sum_cons, if_neg hxk, zero_add]
      exact ih hnd' hx'

theorem sectorInvestment_cons (r : Record) (rest : List Record) (s : String) :
    sectorInvestment (r :: rest) s =
      (if r.setor == s then r.investimento_ia_usd_milhoes else 0) +
        sectorInvestment rest s := by
  by_cases h : (r.setor == s) = true
  · simp [sectorInvestment, totalInvestment, List.filter_cons, h]
  · simp [sectorInvestment, totalInvestment, List.filter_cons, h]

theorem sum_sectorInvestment (ks : List String) (d : List Record)
    (hnd : ks.Nodup) (hall : ∀ r ∈ d, r.setor ∈ ks) :
    (ks.map (fun s => sectorInvestment d s)).sum = totalInvestment d := by
  induction d with
  | nil =>
    have : ∀ y ∈ ks.map (fun s => sectorInvestment [] s), y = 0 := by
      intro y hy
      rcases List.mem_map.mp hy with ⟨s, _, rfl⟩
      simp [sectorInvestment, totalInvestment]
    rw [List.sum_eq_zero this]
    simp [totalInvestment]
  | cons r rest ih =>
    have hsum :
        (ks.map (fun s => sectorInvestment (r :: rest) s)).sum =
          (ks.map (fun s =>
            if r.setor == s then r.investimento_ia_usd_milhoes else 0)).sum +
          (ks.map (fun s => sectorInvestment rest s)).sum := by
      simp only [sectorInvestment_cons]
      exact list_sum_map_add ks _ _
    rw [hsum,
      list_sum_map_single r.investimento_ia_usd_milhoes hnd
        (hall r (List.mem_cons_self r rest)),
      ih (fun q hq => hall q (List.mem_cons_of_mem r hq))]
    simp [totalInvestment]

/-- C6: the per-sector investment shares of the overview pie sum exactly
(over `ℚ`) to the total investment of the filtered set. -/
theorem sector_shares_sum_to_total (d : List Record) :
    ((sectors_of d).map (fun s => sectorInvestment d s)).sum
      = totalInvestment d :=
  sum_sectorInvestment (sectors_of d) d (List.nodup_dedup _)
    (fun r hr => List.mem_dedup.mpr (List.mem_map.mpr ⟨r, hr, rfl⟩))

/-- `Series.value_counts()` as used on categorical columns: each distinct
value with its number of occurrences, sorted by descending count. -/
def value_counts (l : List String) : List (String × Nat) :=
  (l.dedup.map (fun v => (v, l.count v))).mergeSort
    (fun a b => decide (b.2 ≤ a.2))

/-- View model of `render_company_page`: either the explicit no-data
notice (`st.warning` + early return) or the rendered metrics and charts
(mean investment, mean profit growth, the per-year dual-axis series, and
the AI-use-case frequency counts). -/
inductive CompanyView where
  | noData : CompanyView
  | view (meanInvestment meanGrowth : ℚ)
      (series : List (Int × ℚ × ℚ))
      (usageCounts : List (String × Nat)) : CompanyView
deriving DecidableEq, Repr

/-- `render_company_page(filtered_df)` with the selectbox choice made
explicit: narrows to the selected company's rows; when that frame is
empty it warns and returns, otherwise it renders the metrics/charts. -/
def render_company_page (filtered_df : List Record)
    (selected_company : String) : CompanyView :=
  let df_company := filtered_df.filter (fun r => r.empresa == selected_company)
  if df_company.isEmpty then CompanyView.noData
  else
    CompanyView.view
      (meanQ (df_company.map (fun r => r.investimento_ia_usd_milhoes)))
      (meanQ (df_company.map (fun r => r.crescimento_lucro)))
      (df_company.map (fun r =>
        (r.ano, r.investimento_ia_usd_milhoes, r.crescimento_lucro)))
      (value_counts (df_company.map (fun r => r.principais_usos_ia)))

/-- View model of `render_sector_page`: either the explicit no-data notice
or the rendered metrics and charts (total investment, distinct company
count, mean innovation score, the per-company scatter and the
operational-impact frequency counts). -/
inductive SectorView where
  | noData : SectorView
  | view (totalInv : ℚ) (companiesInSector : Nat) (meanInnovation : ℚ)
      (scatter : List (ℚ × ℚ × ℚ × String))
      (impactCounts : List (String × Nat)) : SectorView
deriving DecidableEq, Repr

/-- `render_sector_page(filtered_df)` with the selectbox choice made
explicit: narrows to the selected sector's rows; when that frame is empty
it warns and returns, otherwise it renders the metrics/charts. -/
def render_sector_page (filtered_df : List Record)
    (selected_sector : String) : SectorView :=
  let df_sector := filtered_df.filter (fun r => r.setor == selected_sector)
  if df_sector.isEmpty then SectorView.noData
  else
    SectorView.view
      (totalInvestment df_sector)
      (distinctCompanies df_sector)
      (meanQ (df_sector.map (fun r => r.nota_inovacao)))
      (df_sector.map (fun r =>
        (r.investimento_ia_usd_milhoes, r.crescimento_lucro,
          r.nota_inovacao, r.empresa)))
      (value_counts (df_sector.map (fun r => r.impacto_operacional)))

/-- C8: when the drill-down selection matches zero rows of the filtered
set, the company page and the sector page do not fail: each returns the
explicit no-data view and renders no metrics or charts. -/
theorem drilldown_empty_no_data (filtered_df : List Record)
    (company sector : String)
    (hc : ∀ r ∈ filtered_df, r.empresa ≠ company)
    (hs : ∀ r ∈ filtered_df, r.setor ≠ sector) :
    render_company_page filtered_df company = CompanyView.noData ∧
    render_sector_page filtered_df sector = SectorView.noData := by
  constructor
  · have h : filtered_df.filter (fun r => r.empresa == company) = [] := by
      rw [List.filter_eq_nil_iff]
      intro r hr
      simp only [beq_iff_eq]
      exact hc r hr
    simp [render_company_page, h]
  · have h : filtered_df.filter (fun r => r.setor == sector) = [] := by
      rw [List.filter_eq_nil_iff]
      intro r hr
      simp only [beq_iff_eq]
      exact hs r hr
    simp [render_sector_page, h]

/-- Witness for C8: the selections "Z" (company) and "Retail" (sector)
match no row of the concrete filtered set `[recA, recB]`. -/
theorem drilldown_empty_no_data_witness :
    (∀ r ∈ [recA, recB], r.empresa ≠ "Z") ∧
    (∀ r ∈ [recA, recB], r.setor ≠ "Retail") ∧
    (render_company_page [recA, recB] "Z" = CompanyView.noData ∧
      render_sector_page [recA, recB] "Retail" = SectorView.noData) :=
  ⟨by decide, by decide,
   drilldown_empty_no_data [recA, recB] "Z" "Retail" (by decide) (by decide)⟩

/-- Sum of pointwise products of two real sequences (the building block of
the pandas Pearson computation). -/
def sumMul (a b : List ℝ) : ℝ := (List.zipWith (fun u v => u * v) a b).sum

/-- Arithmetic mean of a real column (`Series.mean`). -/
noncomputable def meanR (l : List ℝ) : ℝ := l.sum / (l.length : ℝ)

/-- Deviations of a column from its mean. -/
noncomputable def dev (l : List ℝ) : List ℝ := l.map (fun u => u - meanR l)

/-- Covariance of two columns up to the common `1/(n-1)` factor, which
cancels in the correlation quotient. -/
noncomputable def cov (x y : List ℝ) : ℝ := sumMul (dev x) (dev y)

/-- Variance of a column up to the same factor. -/
noncomputable def var (x : List ℝ) : ℝ := cov x x

/-- One entry of `numeric_cols.corr()` (Pearson): undefined (`none`,
pandas NaN) when either column has zero variance, else the normalized
covariance. -/
noncomputable def corr (x y : List ℝ) : Option ℝ :=
  if var x = 0 ∨ var y = 0 then none
  else some (cov x y / (Real.sqrt (var x) * Real.sqrt (var y)))

/-- `filtered_df.select_dtypes(include=["float64", "int64"])`: the four
numeric columns `ano`, `investimento_ia_usd_milhoes`,
`crescimento_lucro_%`, `nota_inovacao`, as real sequences. -/
noncomputable def numericCols (d : List Record) : List (List ℝ) :=
  [d.map (fun r => (r.ano : ℝ)),
   d.map (fun r => (r.investimento_ia_usd_milhoes : ℝ)),
   d.map (fun r => (r.crescimento_lucro : ℝ)),
   d.map (fun r => (r.nota_inovacao : ℝ))]

theorem sumMul_comm (a b : List ℝ) : sumMul a b = sumMul b a := by
  induction a generalizing b with
  | nil => cases b <;> simp [sumMul]
  | cons u us ih =>
    cases b with
    | nil => simp [sumMul]
    | cons v vs =>
      simp only [sumMul, List.zipWith_cons_cons, List.sum_cons] at *
      rw [mul_comm, ih vs]

theorem sumMul_self_nonneg (a : List ℝ) : 0 ≤ sumMul a a := by
  induction a with
  | nil => simp [sumMul]
  | cons u us ih =>
    simp only [sumMul, List.zipWith_cons_cons, List.sum_cons] at *
    exact add_nonneg (mul_self_nonneg u) ih

theorem sumMul_eq_sum_range (a b : List ℝ) :
    sumMul a b = ∑ i ∈ Finset.range (min a.length b.length),
      a.getD i 0 * b.getD i 0 := by
  induction a generalizing b with
  | nil => simp [sumMul]
  | cons u us ih =>
    cases b with
    | nil => simp [sumMul]
    | cons v vs =>
      simp only [sumMul, List.zipWith_cons_cons, List.sum_cons,
        List.length_cons] at *
      rw [Nat.succ_min_succ, Finset.sum_range_succ']
      simp only [List.getD_cons_succ, List.getD_cons_zero]
      rw [ih vs, add_comm]

theorem sumMul_sq_le (a b : List ℝ) :
    (sumMul a b) ^ 2 ≤ sumMul a a * sumMul b b := by
  rw [sumMul_eq_sum_range a b, sumMul_eq_sum_range a a, sumMul_eq_sum_range b b,
    min_self, min_self]
  have CS := Finset.sum_mul_sq_le_sq_mul_sq
    (Finset.range (min a.length b.length))
    (fun i => a.getD i 0) (fun i => b.getD i 0)
  simp only [pow_two] at CS ⊢
  have ha : (∑ i ∈ Finset.range (min a.length b.length), a.getD i 0 * a.getD i 0)
      ≤ ∑ i ∈ Finset.range a.length, a.getD i 0 * a.getD i 0 :=
    Finset.sum_le_sum_of_subset_of_nonneg
      (Finset.range_subset.mpr (min_le_left _ _))
      (fun i _ _ => mul_self_nonneg _)
  have hb : (∑ i ∈ Finset.range (min a.length b.length), b.getD i 0 * b.getD i 0)
      ≤ ∑ i ∈ Finset.range b.length, b.getD i 0 * b.getD i 0 :=
    Finset.sum_le_sum_of_subset_of_nonneg
      (Finset.range_subset.mpr (min_le_right _ _))
      (fun i _ _ => mul_self_nonneg _)
  have h0a : 0 ≤ ∑ i ∈ Finset.range (min a.length b.length),
      a.getD i 0 * a.getD i 0 :=
    Finset.sum_nonneg (fun i _ => mul_self_nonneg _)
  have h0b : 0 ≤ ∑ i ∈ Finset.range (min a.length b.length),
      b.getD i 0 * b.getD i 0 :=
    Finset.sum_nonneg (fun i _ => mul_self_nonneg _)
  calc (∑ i ∈ Finset.range (min a.length b.length),
          a.getD i 0 * b.getD i 0) *
        (∑ i ∈ Finset.range (min a.length b.length), a.getD i 0 * b.getD i 0)
      ≤ (∑ i ∈ Finset.range (min a.length b.length), a.getD i 0 * a.getD i 0) *
        (∑ i ∈ Finset.range (min a.length b.length), b.getD i 0 * b.getD i 0) := CS
    _ ≤ (∑ i ∈ Finset.range a.length, a.getD i 0 * a.getD i 0) *
        (∑ i ∈ Finset.range b.length, b.getD i 0 * b.getD i 0) :=
        mul_le_mul ha hb h0b (le_trans h0a ha)

theorem var_nonneg (x : List ℝ) : 0 ≤ var x := sumMul_self_nonneg (dev x)

theorem cov_sq_le (x y : List ℝ) : (cov x y) ^ 2 ≤ var x * var y :=
  sumMul_sq_le (dev x) (dev y)

theorem abs_cov_le (x y : List ℝ) :
    |cov x y| ≤ Real.sqrt (var x) * Real.sqrt (var y) := by
  have h1 : |cov x y| = Real.sqrt ((cov x y) ^ 2) :=
    (Real.sqrt_sq_eq_abs _).symm
  rw [h1, ← Real.sqrt_mul (var_nonneg x)]
  exact Real.sqrt_le_sqrt (cov_sq_le x y)

/-- C7: every entry of the trends page's correlation matrix over the
numeric columns of the filtered set is symmetric and lies in `[-1, 1]`;
the diagonal is `1` exactly at columns of nonzero variance; and any entry
involving a zero-variance column is undefined (`none`), not normalized
away. -/
theorem corr_matrix_spec (d : List Record) (x y : List ℝ)
    (hx : x ∈ numericCols d) (hy : y ∈ numericCols d) :
    corr x y = corr y x ∧
    (∀ v, corr x y = some v → -1 ≤ v ∧ v ≤ 1) ∧
    (var x ≠ 0 → corr x x = some 1) ∧
    (var x = 0 → corr x y = none) := by
  have hcov : cov x y = cov y x := sumMul_comm (dev x) (dev y)
  refine ⟨?_, ?_, ?_, ?_⟩
  · by_cases h1 : var x = 0 <;> by_cases h2 : var y = 0 <;>
      simp [corr, h1, h2, hcov, mul_comm]
  · intro v hv
    by_cases hcond : var x = 0 ∨ var y = 0
    · simp [corr, hcond] at hv
    · push_neg at hcond
      obtain ⟨h1, h2⟩ := hcond
      have hv' : cov x y / (Real.sqrt (var x) * Real.sqrt (var y)) = v := by
        simp [corr, h1, h2] at hv
        exact hv
      have hvx : 0 < var x := lt_of_le_of_ne (var_nonneg x) (Ne.symm h1)
      have hvy : 0 < var y := lt_of_le_of_ne (var_nonneg y) (Ne.symm h2)
      have hprod : 0 < Real.sqrt (var x) * Real.sqrt (var y) :=
        mul_pos (Real.sqrt_pos.mpr hvx) (Real.sqrt_pos.mpr hvy)
      have habs : |v| ≤ 1 := by
        rw [← hv', abs_div, abs_of_pos hprod]
        exact (div_le_one hprod).mpr (abs_cov_le x y)
      exact abs_le.mp habs
  · intro h1
    have : Real.sqrt (var x) * Real.sqrt (var x) = var x :=
      Real.mul_self_sqrt (var_nonneg x)
    simp only [corr, h1, or_self, if_false, this]
    have hc : cov x x = var x := rfl
    rw [hc, div_self h1]
  · intro h1
    simp [corr, h1]

/-- Witness for C7 at the concrete example dataset, with the year column
and the investment column. -/
theorem corr_matrix_spec_witness :
    (exampleDataset.map (fun r => (r.ano : ℝ)) ∈ numericCols exampleDataset) ∧
    (exampleDataset.map (fun r => (r.investimento_ia_usd_milhoes : ℝ)) ∈
      numericCols exampleDataset) ∧
    (corr (exampleDataset.map (fun r => (r.ano : ℝ)))
        (exampleDataset.map (fun r => (r.investimento_ia_usd_milhoes : ℝ))) =
      corr (exampleDataset.map (fun r => (r.investimento_ia_usd_milhoes : ℝ)))
        (exampleDataset.map (fun r => (r.ano : ℝ))) ∧
    (∀ v, corr (exampleDataset.map (fun r => (r.ano : ℝ)))
        (exampleDataset.map (fun r => (r.investimento_ia_usd_milhoes : ℝ))) =
          some v → -1 ≤ v ∧ v ≤ 1) ∧
    (var (exampleDataset.map (fun r => (r.ano : ℝ))) ≠ 0 →
      corr (exampleDataset.map (fun r => (r.ano : ℝ)))
        (exampleDataset.map (fun r => (r.ano : ℝ))) = some 1) ∧
    (var (exampleDataset.map (fun r => (r.ano : ℝ))) = 0 →
      corr (exampleDataset.map (fun r => (r.ano : ℝ)))
        (exampleDataset.map (fun r => (r.investimento_ia_usd_milhoes : ℝ))) =
          none)) :=
  ⟨by simp [numericCols], by simp [numericCols],
   corr_matrix_spec exampleDataset
     (exampleDataset.map (fun r => (r.ano : ℝ)))
     (exampleDataset.map (fun r => (r.investimento_ia_usd_milhoes : ℝ)))
     (by simp [numericCols]) (by simp [numericCols])⟩
